import Mathlib

/-!
# Verification of `MarkdownTranslator.py` (Free-Markdown-Translator)

A shallow embedding of `src/MarkdownTranslator.py` and proofs about its
line-classification state machine, batch splice/realignment algorithm,
expansion post-processor and per-language orchestration.

The repository's helper modules (`Nodes.py`, `Utils.py`, `Translator.py`,
`config.py`) are not part of the sources; definitions taken from them are
marked `Modelled from the spec:` and follow the specification's wording.

Conventions of the embedding:
* a "line" is a `String` without a terminating newline, as produced by
  Python's `str.splitlines()`;
* node `compose`/`get_trans_buff` results are given directly as lists of
  lines (the Python source emits newline-terminated strings and re-splits
  them, which is the identity on such line lists);
* Python exceptions are modelled with `Except String`;
* the thread pool runs independent tasks with no shared mutable state, so
  it is modelled by a sequential `List.map` over the target languages.
-/

namespace MdTranslater

/-! ## String helpers

Python string primitives are modelled by structurally recursive functions
over character lists (rather than the iterator-based Lean library
functions), so that every definition evaluates by kernel reduction. -/

/-- Python's `str.strip()` on a character list. -/
def pyStripList (cs : List Char) : List Char :=
  ((cs.dropWhile Char.isWhitespace).reverse.dropWhile Char.isWhitespace).reverse

/-- Python's `str.strip()`. -/
def pyStrip (s : String) : String := String.mk (pyStripList s.toList)

/-- Python's `str.startswith` with a single prefix. -/
def pyStartsWith (s pre : String) : Bool :=
  pre.toList.isPrefixOf s.toList

/-- Python's `str.lower()`. -/
def pyLower (s : String) : String := String.mk (s.toList.map Char.toLower)

/-- Split a character list on a single separator character. -/
def splitOnCharList (sep : Char) : List Char → List (List Char)
  | [] => [[]]
  | c :: rest =>
    if c = sep then [] :: splitOnCharList sep rest
    else
      match splitOnCharList sep rest with
      | [] => [[c]]
      | g :: gs => (c :: g) :: gs

/-- Python's `str.split("\n")`. -/
def splitOnNL (s : String) : List String :=
  (splitOnCharList '\n' s.toList).map String.mk

/-- Split a character list on the two-character separator `", "`
(Python's `str.split(", ")`). -/
def splitCommaSpList : List Char → List (List Char)
  | [] => [[]]
  | ',' :: ' ' :: rest => [] :: splitCommaSpList rest
  | c :: rest =>
    match splitCommaSpList rest with
    | [] => [[c]]
    | g :: gs => (c :: g) :: gs

/-- Python's `sep.join(..)`. -/
def joinSep (sep : String) : List String → String
  | [] => ""
  | [l] => l
  | l :: ls => l ++ sep ++ joinSep sep ls

/-- Character is in the CJK unified-ideograph block (used by the modelled
expansion boundary pattern). -/
def isCJK (c : Char) : Bool := 0x4E00 ≤ c.toNat && c.toNat ≤ 0x9FFF

/-- Character is a half-width Latin letter or digit. -/
def isLatinAlnum (c : Char) : Bool :=
  (('a' ≤ c && c ≤ 'z') || ('A' ≤ c && c ≤ 'Z') || ('0' ≤ c && c ≤ '9'))

/-- Modelled from the spec: `full_width_symbol_to_half_width` lives in
`Utils.py`, which is not part of the given sources.  Per the spec it folds
full-width ASCII-range symbols (U+FF01..U+FF5E) to their half-width
equivalents (U+0021..U+007E), line by line. -/
def full_width_symbol_to_half_width (line : String) : String :=
  String.mk (line.toList.map fun c =>
    if 0xFF01 ≤ c.toNat && c.toNat ≤ 0xFF5E then Char.ofNat (c.toNat - 0xFEE0) else c)

/-- Python's `str.startswith` with a tuple of prefixes. -/
def startsWithAny (line : String) (keys : List String) : Bool :=
  keys.any fun k => pyStartsWith line k

/-- Substring search on character lists. -/
def containsSubAux (needle : List Char) : List Char → Bool
  | [] => needle.isPrefixOf []
  | c :: rest => needle.isPrefixOf (c :: rest) || containsSubAux needle rest

/-- Modelled from the spec: `Patterns.ImageOrLink` lives in `Utils.py`, which
is not part of the given sources.  Per the spec it recognises lines carrying
Markdown image-or-link markup. -/
def imageOrLinkMatch (line : String) : Bool :=
  containsSubAux "](".toList line.toList

/-- Python's `"\n".join`. -/
def joinNL (lines : List String) : String := joinSep "\n" lines

/-- Join lines, terminating each with a newline (how the composed document
text is accumulated before being written). -/
def joinNLterm : List String → String
  | [] => ""
  | l :: ls => l ++ "\n" ++ joinNLterm ls

/-- Python's `str.rstrip` with argument `'\n'`: drop every trailing newline
character. -/
def rstripNewlines (s : String) : String :=
  String.mk ((s.toList.reverse.dropWhile fun c => c = '\n').reverse)

/-- Model of Python's `str.splitlines` (newline-only separators). -/
def splitlinesModel (s : String) : List String :=
  let l := splitOnNL s
  if l.getLast? = some "" then l.dropLast else l

/-! ## Configuration (`config.py` is not part of the given sources) -/

/-- Modelled from the spec: the configuration consumed by the translator
(`config.py` is not part of the given sources).  Fields mirror the
attributes read by `MarkdownTranslator.py`. -/
structure Config where
  insert_warnings : Bool
  warnings_mapping : String → String
  front_matter_key_value_keys : List String
  front_matter_transparent_keys : List String
  front_matter_key_value_array_keys : List String
  compact_langs : List String
  src_language : String
  target_langs : List String

/-! ## Segments (`Nodes.py` is not part of the given sources) -/

/-- Modelled from the spec: the segment ("Node") variants of `Nodes.py`.
The machine-translation disclaimer banner is a `TransparentNode` in the
source; it is distinguished here as its own constructor `warning` (with
identical translation-buffer/compose behaviour) so that insertion counts
can be stated.  Translatable variants carry the raw line plus the deferred
translated `value` (`none` until the splice fills it in). -/
inductive Node where
  | transparent (value : String)
  | warning (text : String)
  | solid (line : String) (value : Option String)
  | title (line : String) (value : Option String)
  | imageOrLink (line : String) (value : Option String)
  | keyValue (line : String) (value : Option String)
  | keyValueArray (line : String) (value : Option String)
  deriving Repr, DecidableEq

namespace Node

/-- Leading heading-marker run of a title line (preserved by `compose`). -/
def titleMarker (line : String) : String :=
  String.mk (line.toList.takeWhile fun c => c = '#' || c = ' ')

/-- Text of a title line after the heading markers. -/
def titleText (line : String) : String :=
  String.mk (line.toList.dropWhile fun c => c = '#' || c = ' ')

/-- Key part of a `key: value` front-matter line. -/
def kvKey (line : String) : String :=
  String.mk (line.toList.takeWhile fun c => c ≠ ':')

/-- Value part of a `key: value` front-matter line. -/
def kvValue (line : String) : String :=
  pyStrip (String.mk ((line.toList.dropWhile fun c => c ≠ ':').drop 1))

/-- Elements of an inline front-matter array line `key: [a, b, c]`. -/
def arrayElems (line : String) : List String :=
  (splitCommaSpList ((kvValue line).toList.filter fun c => c ≠ '[' && c ≠ ']')).map String.mk

/-- Modelled from the spec: each segment's `translatable_text` extractor
(`get_trans_buff` in `Nodes.py`), as a list of lines contributed to the
batch.  Transparent segments contribute nothing; array segments contribute
one line per element. -/
def get_trans_buff : Node → List String
  | .transparent _ => []
  | .warning _ => []
  | .solid l _ => [l]
  | .title l _ => [titleText l]
  | .imageOrLink l _ => [l]
  | .keyValue l _ => [kvValue l]
  | .keyValueArray l _ => arrayElems l

/-- Modelled from the spec: each segment's `expected_line_count`
(`trans_lines` in `Nodes.py`): 0 for transparent segments, 1 for scalar
segments, one per element for array segments. -/
def trans_lines : Node → Nat
  | .transparent _ => 0
  | .warning _ => 0
  | .solid _ _ => 1
  | .title _ _ => 1
  | .imageOrLink _ _ => 1
  | .keyValue _ _ => 1
  | .keyValueArray l _ => (arrayElems l).length

/-- The splice's `node.value = ...` assignment. -/
def setValue : Node → String → Node
  | .transparent v, _ => .transparent v
  | .warning w, _ => .warning w
  | .solid l _, v => .solid l (some v)
  | .title l _, v => .title l (some v)
  | .imageOrLink l _, v => .imageOrLink l (some v)
  | .keyValue l _, v => .keyValue l (some v)
  | .keyValueArray l _, v => .keyValueArray l (some v)

/-- Modelled from the spec: each segment's `compose`, as the list of output
lines it contributes.  Transparent segments emit their stored line
unchanged; the warning banner (a `TransparentNode` holding
`"\n> {warning}\n"` in the source) emits a blank line and the banner
line. -/
def compose : Node → List String
  | .transparent v => [v]
  | .warning w => ["", "> " ++ w]
  | .solid _ v => [v.getD ""]
  | .title l v => [titleMarker l ++ v.getD ""]
  | .imageOrLink _ v => [v.getD ""]
  | .keyValue l v => [kvKey l ++ ": " ++ v.getD ""]
  | .keyValueArray l v => [kvKey l ++ ": [" ++ joinSep ", " (splitOnNL (v.getD "")) ++ "]"]

/-- The segment is a `TransparentNode` built from a document line. -/
def isTransparent : Node → Bool
  | .transparent _ => true
  | _ => false

/-- The segment is the inserted machine-translation disclaimer banner. -/
def isWarning : Node → Bool
  | .warning _ => true
  | _ => false

end Node

/-! ## `__preprocessing` (lines 19-24 of `MarkdownTranslator.py`) -/

/-- Embedding of `MdTranslater.__preprocessing`: fold full-width symbols to
half-width for every target language other than `"zh-tw"`
(case-insensitively), then append the `"\n"` terminator element. -/
def preprocessing (target_lang : String) (src_lines : List String) : List String :=
  let src_lines :=
    if pyLower target_lang ≠ "zh-tw" then
      src_lines.map full_width_symbol_to_half_width
    else src_lines
  src_lines ++ ["\n"]

/-! ## `__generate_nodes` (lines 26-87) -/

/-- The classifier's scanner state: three independent toggle flags plus the
pending-disclaimer flag. -/
structure ScanState where
  is_front_matter : Bool
  is_code_block : Bool
  do_not_trans : Bool
  insert_warnings : Bool
  deriving Repr, DecidableEq

/-- Initial scanner state: all toggles off, disclaimer pending iff enabled
by configuration. -/
def ScanState.init (cfg : Config) : ScanState :=
  ⟨false, false, false, cfg.insert_warnings⟩

/-- Embedding of the loop body of `MdTranslater.__generate_nodes`,
processing the remaining lines from a given scanner state.  Branches appear
in the source's order: front-matter delimiter, code fence, do-not-translate
sentinel, front-matter classification, code/do-not-translate passthrough,
blank-or-media, image-or-link, heading, plain prose. -/
def generateNodesGo (cfg : Config) (target_lang : String) :
    ScanState → List String → List Node
  | _, [] => []
  | st, line :: rest =>
    if pyStrip line = "---" then
      -- the source toggles the flag first and inserts the banner when
      -- `not is_front_matter` holds afterwards, i.e. when the old flag was
      -- on (the delimiter closed front matter) and insertion is pending
      (if st.is_front_matter && st.insert_warnings then
        [Node.transparent line, Node.warning (cfg.warnings_mapping target_lang)]
      else [Node.transparent line]) ++
        generateNodesGo cfg target_lang
          { st with is_front_matter := !st.is_front_matter,
                    insert_warnings := st.insert_warnings && !st.is_front_matter } rest
    else if pyStartsWith line "```" then
      Node.transparent line ::
        generateNodesGo cfg target_lang
          { st with is_code_block := !st.is_code_block } rest
    else if pyStartsWith line "__do_not_translate__" then
      generateNodesGo cfg target_lang { st with do_not_trans := !st.do_not_trans } rest
    else if st.is_front_matter then
      (if startsWithAny line cfg.front_matter_key_value_keys then
        Node.keyValue line none
      else if startsWithAny line cfg.front_matter_transparent_keys then
        Node.transparent line
      else if startsWithAny line cfg.front_matter_key_value_array_keys then
        Node.keyValueArray line none
      else Node.solid line none) :: generateNodesGo cfg target_lang st rest
    else if st.is_code_block || st.do_not_trans then
      Node.transparent line :: generateNodesGo cfg target_lang st rest
    else if pyStrip line = "" || pyStartsWith line "<audio" || pyStartsWith line "<img " then
      Node.transparent line :: generateNodesGo cfg target_lang st rest
    else if imageOrLinkMatch line then
      Node.imageOrLink line none :: generateNodesGo cfg target_lang st rest
    else if pyStartsWith (pyStrip line) "#" then
      (if pyStartsWith (pyStrip line) "# " && st.insert_warnings then
        [Node.title line none, Node.warning (cfg.warnings_mapping target_lang)]
      else [Node.title line none]) ++
        generateNodesGo cfg target_lang
          { st with insert_warnings :=
                      st.insert_warnings && !(pyStartsWith (pyStrip line) "# ") } rest
    else
      Node.solid line none :: generateNodesGo cfg target_lang st rest

/-- Embedding of `MdTranslater.__generate_nodes`. -/
def generateNodes (cfg : Config) (src_lines : List String) (target_lang : String) :
    List Node :=
  generateNodesGo cfg target_lang (ScanState.init cfg) src_lines

/-! ## Batch construction and splice (`__translate_lines`, lines 89-110) -/

/-- The batch submitted to the backend: ordered concatenation of every
segment's translatable lines (line 96-97 of the source, which joins the
newline-terminated buffers and re-splits them). -/
def batchLines (nodes : List Node) : List String :=
  (nodes.map Node.get_trans_buff).flatten

/-- Total `expected_line_count` over a segment list. -/
def sumTransLines (nodes : List Node) : Nat :=
  (nodes.map Node.trans_lines).sum

/-- Embedding of the splice loop (lines 100-108): walk the nodes with the
`start_pos` cursor into the response lines.  A segment with
`trans_lines = 0` is skipped; `= 1` indexes the response
(`translated_lines[start_pos]`, whose Python `IndexError` out of range is
modelled by `none`); `> 1` takes the Python slice
`translated_lines[start_pos : start_pos + n]`, which silently truncates
when the response is short.  Returns the filled nodes and the final cursor
position. -/
def spliceGo (translated : List String) :
    List Node → Nat → Option (List Node × Nat)
  | [], pos => some ([], pos)
  | n :: ns, pos =>
    if n.trans_lines = 0 then
      (spliceGo translated ns pos).map fun r => (n :: r.1, r.2)
    else if n.trans_lines = 1 then
      match translated[pos]? with
      | none => none
      | some l =>
        (spliceGo translated ns (pos + 1)).map fun r => (n.setValue l :: r.1, r.2)
    else
      (spliceGo translated ns (pos + n.trans_lines)).map fun r =>
        (n.setValue (joinNL ((translated.drop pos).take n.trans_lines)) :: r.1, r.2)

/-- Embedding of `MdTranslater.__translate_lines`: generate nodes, build the
batch, call the backend once, splice the response back positionally and
compose.  The backend (`Translator.translate_in_batches`, not part of the
given sources) is a parameter returning the translated text or an error;
its result is split into lines as in the source.  The composed document is
returned as its list of lines. -/
def translate_lines (cfg : Config)
    (backend : List String → String → String → Except String String)
    (src_lines : List String) (src_lang target_lang : String) :
    Except String (List String) := do
  let nodes := generateNodes cfg src_lines target_lang
  let batch := batchLines nodes
  let translatedText ← backend batch src_lang target_lang
  let translated := splitlinesModel translatedText
  match spliceGo translated nodes 0 with
  | none => .error "IndexError: list index out of range"
  | some r => pure ((r.1.map Node.compose).flatten)

/-! ## Expansion post-processor (`__translate_to`, lines 125-135) -/

/-- Modelled from the spec: `Patterns.Expands.split` lives in `Utils.py`,
which is not part of the given sources.  Per the spec it splits a line into
ordered parts where adjacent runs of different script classes (ideographic
vs not) meet. -/
def splitRuns : List Char → List (List Char)
  | [] => []
  | c :: rest =>
    match splitRuns rest with
    | [] => [[c]]
    | [] :: gs => [c] :: [] :: gs
    | (d :: ds) :: gs =>
      if isCJK c = isCJK d then (c :: d :: ds) :: gs else [c] :: (d :: ds) :: gs

/-- The parts of a line, split at script boundaries. -/
def expandsSplit (line : String) : List String :=
  (splitRuns line.toList).map String.mk

/-- A space must separate the two characters (they sit on an
ideographic/Latin boundary). -/
def needSpace (a b : Char) : Bool :=
  (isCJK a && isLatinAlnum b) || (isLatinAlnum a && isCJK b)

/-- Modelled from the spec: `expand_part` lives in `Utils.py`, which is not
part of the given sources.  Per the spec it inserts a leading space before a
part when the last emitted character (possibly from the previous line) and
the part's first character sit on a script boundary.  The `parts` list and
`position` of the source signature are carried but the modelled decision
uses only the part and `last_char`. -/
def expand_part (part : String) (parts : List String) (position : Nat)
    (last_char : String) : String :=
  match last_char.toList.getLast?, part.toList.head? with
  | some a, some b => if needSpace a b then " " ++ part else part
  | _, _ => part

/-- The inner loop over a line's parts (lines 131-134): expand each part,
update `last_char` to the expanded part's last character when it is
nonempty, and accumulate the output. -/
def expandPartsGo (parts : List String) :
    List String → Nat → String → String × String
  | [], _, last_char => ("", last_char)
  | p :: rest, position, last_char =>
    let p2 := expand_part p parts position last_char
    let lc2 := match p2.toList.getLast? with
      | some c => String.mk [c]
      | none => last_char
    let r := expandPartsGo parts rest (position + 1) lc2
    (p2 ++ r.1, r.2)

/-- One line of the expansion loop (lines 126-135): blank lines and compact
target languages pass through with their newline; otherwise the line is
split into parts and each part expanded, threading `last_char`. -/
def expandLine (cfg : Config) (target_lang : String) (line : String)
    (last_char : String) : String × String :=
  if pyStrip line = "" || cfg.compact_langs.contains target_lang then
    (line ++ "\n", last_char)
  else
    let parts := expandsSplit line
    let r := expandPartsGo parts parts 0 last_char
    (r.1 ++ "\n", r.2)

/-- The whole expansion pass: fold over the composed document's lines with
the single `last_char` accumulator (initially `""`), producing
`final_markdown` and the final accumulator. -/
def expandDocGo (cfg : Config) (target_lang : String) :
    List String → String → String × String
  | [], last_char => ("", last_char)
  | line :: rest, last_char =>
    let r1 := expandLine cfg target_lang line last_char
    let r2 := expandDocGo cfg target_lang rest r1.2
    (r1.1 ++ r2.1, r2.2)

/-! ## `__translate_to` (lines 112-140) and orchestration -/

/-- Output path `<stem>.<target_lang>.md` (line 116 / 192). -/
def outPath (stem target_lang : String) : String :=
  stem ++ "." ++ target_lang ++ ".md"

/-- The body of the `try` block of `MdTranslater.__translate_to`: read and
split the source text, preprocess, translate and splice, expand, and strip
trailing newlines.  Returns the output path and written text, or the
exception that escaped. -/
def translate_to_result (cfg : Config)
    (backend : List String → String → String → Except String String)
    (stem src_text target_lang : String) :
    Except String (String × String) := do
  let src_lines := splitlinesModel src_text
  let src_lines := preprocessing target_lang src_lines
  let final_md_lines ← translate_lines cfg backend src_lines cfg.src_language target_lang
  let r := expandDocGo cfg target_lang final_md_lines ""
  pure (outPath stem target_lang, rstripNewlines r.1)

/-- Outcome of one per-language task: either a file write, or a logged
failure. -/
inductive TaskResult where
  | written (path text : String)
  | failed (log : String)
  deriving Repr, DecidableEq

/-- Embedding of `MdTranslater.__translate_to`: the `try`/`except` at the
task boundary turns any exception into a logged failure; nothing
propagates. -/
def translate_to (cfg : Config)
    (backend : List String → String → String → Except String String)
    (stem src_text target_lang : String) : TaskResult :=
  match translate_to_result cfg backend stem src_text target_lang with
  | .ok r => .written r.1 r.2
  | .error e =>
    .failed ("Error occurred when translating " ++ stem ++ ".md to "
      ++ target_lang ++ ": " ++ e)

/-- Embedding of `MdTranslater.__parallel_translate`: one task per target
language; the tasks share no mutable state, so the thread pool is modelled
by a sequential map. -/
def parallel_translate (cfg : Config)
    (backend : List String → String → String → Except String String)
    (stem src_text : String) (target_langs : List String) : List TaskResult :=
  target_langs.map (translate_to cfg backend stem src_text)

/-- Embedding of the target-language selection in `main` (lines 189-196):
a language whose output file already exists is skipped. -/
def selectTargetLangs (cfg : Config) (fileExists : String → Bool)
    (stem : String) : List String :=
  cfg.target_langs.filter fun lang => !fileExists (outPath stem lang)

/-! ## Predicates used by the statements -/

/-- Number of disclaimer-banner segments in a node list. -/
def countWarnings (nodes : List Node) : Nat :=
  nodes.countP Node.isWarning

/-- A node after which the disclaimer banner may legitimately appear: a
transparent front-matter delimiter line, or a level-1 heading. -/
def okBefore : Node → Bool
  | .transparent v => pyStrip v == "---"
  | .title l _ => pyStartsWith (pyStrip l) "# "
  | _ => false

/-- The first node of the list is not a disclaimer banner. -/
def headNotWarning : List Node → Prop
  | [] => True
  | n :: _ => n.isWarning = false

/-- Every disclaimer banner in the list immediately follows a front-matter
delimiter or a level-1 heading node. -/
def warningsPlaced : List Node → Prop
  | [] => True
  | [_] => True
  | a :: b :: rest => (b.isWarning = true → okBefore a = true) ∧ warningsPlaced (b :: rest)

/-! ## Concrete fixtures used by counterexamples and witnesses -/

/-- A configuration with disclaimer insertion off and no compact
languages. -/
def cfgA : Config :=
  ⟨false, (fun _ => "W"), ["title"], ["date"], ["tags"], [], "en", ["fr", "de"]⟩

/-- A configuration whose compact set contains `"ja"`. -/
def cfgB : Config :=
  ⟨false, (fun _ => "W"), ["title"], ["date"], ["tags"], ["ja"], "en", ["ja"]⟩

/-- A configuration with disclaimer insertion enabled. -/
def cfgC : Config :=
  ⟨true, (fun _ => "machine translated"), ["title"], ["date"], ["tags"], [], "en", ["fr"]⟩

/-- A backend that echoes the batch back unchanged. -/
def beEcho : List String → String → String → Except String String :=
  fun batch _ _ => .ok (joinNL batch)

/-- A backend that fails for target language `"fr"` and echoes otherwise. -/
def beFailFr : List String → String → String → Except String String :=
  fun batch _ target_lang =>
    if target_lang = "fr" then .error "boom" else .ok (joinNL batch)

/-- Nodes of a small front-matter document with a two-element array
segment. -/
def c1nodes : List Node :=
  generateNodes cfgA (preprocessing "fr" ["---", "tags: [a, b]", "---"]) "fr"

/-- Nodes of a document with a two-element array segment and a prose
line. -/
def c2nodes : List Node :=
  generateNodes cfgA (preprocessing "fr" ["---", "tags: [a, b]", "---", "hi"]) "fr"

/-- A file-existence oracle under which only `doc.fr.md` exists. -/
def existsFrOnly : String → Bool := fun s => s == "doc.fr.md"

/-! ## Helper lemmas -/

theorem getLast?_append_singleton (l : List α) (a : α) :
    (l ++ [a]).getLast? = some a := by
  induction l with
  | nil => rfl
  | cons b l ih =>
    rw [List.cons_append, List.getLast?_cons, ih]
    rfl

theorem head?_dropWhile_not (p : α → Bool) (l : List α) (a : α)
    (h : (l.dropWhile p).head? = some a) : p a = false := by
  induction l with
  | nil => simp [List.dropWhile] at h
  | cons b l ih =>
    rw [List.dropWhile_cons] at h
    by_cases hb : p b = true
    · exact ih (by simpa [hb] using h)
    · simp only [hb, if_false, Bool.false_eq_true] at h
      simp only [List.head?_cons, Option.some.injEq] at h
      subst h
      rwa [Bool.not_eq_true] at hb

/-- The final text after stripping trailing newlines never ends with a
newline character. -/
theorem rstripNewlines_no_trailing (s : String) :
    (rstripNewlines s).toList.getLast? ≠ some '\n' := by
  intro h
  have h1 : (rstripNewlines s).toList
      = ((s.toList.reverse.dropWhile fun c => c = '\n').reverse) := rfl
  rw [h1, List.getLast?_reverse] at h
  have := head?_dropWhile_not (fun c => c = '\n') s.toList.reverse '\n' h
  simp at this

/-- For a compact target language, the expansion pass emits every line
unchanged and leaves the `last_char` accumulator alone. -/
theorem expandDocGo_compact (cfg : Config) (lang : String)
    (h : cfg.compact_langs.contains lang = true) :
    ∀ (lines : List String) (lc : String),
      expandDocGo cfg lang lines lc = (joinNLterm lines, lc) := by
  have hm : lang ∈ cfg.compact_langs := by simpa using h
  intro lines
  induction lines with
  | nil => intro lc; rfl
  | cons line rest ih =>
    intro lc
    simp [expandDocGo, expandLine, h, hm, ih, joinNLterm]

/-- The expansion pass is a fold threading one `last_char` accumulator:
processing `xs ++ ys` feeds the accumulator left by `xs` into `ys`. -/
theorem expandDocGo_append (cfg : Config) (lang : String) :
    ∀ (xs ys : List String) (lc : String),
      expandDocGo cfg lang (xs ++ ys) lc =
        ((expandDocGo cfg lang xs lc).1
            ++ (expandDocGo cfg lang ys (expandDocGo cfg lang xs lc).2).1,
          (expandDocGo cfg lang ys (expandDocGo cfg lang xs lc).2).2) := by
  intro xs
  induction xs with
  | nil => intro ys lc; simp [expandDocGo]
  | cons x xs ih =>
    intro ys lc
    simp [expandDocGo, ih, String.append_assoc]

/-- The node contract: `expected_line_count` equals the number of lines the
segment contributes to the batch. -/
theorem trans_lines_eq_buff_length (n : Node) :
    n.trans_lines = n.get_trans_buff.length := by
  cases n <;> rfl

/-- Conservation: the batch length is the total expected line count. -/
theorem batchLines_length (nodes : List Node) :
    (batchLines nodes).length = sumTransLines nodes := by
  induction nodes with
  | nil => rfl
  | cons n ns ih =>
    simp only [batchLines, List.map_cons, List.flatten_cons, List.length_append,
      sumTransLines, List.sum_cons] at *
    rw [ih, trans_lines_eq_buff_length]

/-- The splice cursor advances by exactly `trans_lines` per node: on
success, the final cursor is the initial cursor plus the total expected
line count. -/
theorem spliceGo_cursor (translated : List String) :
    ∀ (ns : List Node) (pos : Nat) (r : List Node × Nat),
      spliceGo translated ns pos = some r → r.2 = pos + sumTransLines ns := by
  intro ns
  induction ns with
  | nil =>
    intro pos r h
    simp only [spliceGo, Option.some.injEq] at h
    simp [← h, sumTransLines]
  | cons n ns ih =>
    intro pos r h
    by_cases h0 : n.trans_lines = 0
    · rw [spliceGo, if_pos h0, Option.map_eq_some'] at h
      obtain ⟨r', hr', hfr⟩ := h
      have := ih pos r' hr'
      simp [← hfr, this, sumTransLines, h0]
    · by_cases h1 : n.trans_lines = 1
      · rw [spliceGo, if_neg h0, if_pos h1] at h
        cases hp : translated[pos]? with
        | none => rw [hp] at h; cases h
        | some l =>
          rw [hp, Option.map_eq_some'] at h
          obtain ⟨r', hr', hfr⟩ := h
          have := ih (pos + 1) r' hr'
          simp only [← hfr, this, sumTransLines, List.map_cons, List.sum_cons, h1]
          omega
      · rw [spliceGo, if_neg h0, if_neg h1, Option.map_eq_some'] at h
        obtain ⟨r', hr', hfr⟩ := h
        have := ih (pos + n.trans_lines) r' hr'
        simp only [← hfr, this, sumTransLines, List.map_cons, List.sum_cons]
        omega

@[simp] theorem countWarnings_nil : countWarnings [] = 0 := rfl

@[simp] theorem countWarnings_cons (n : Node) (l : List Node) :
    countWarnings (n :: l) = (if n.isWarning then 1 else 0) + countWarnings l := by
  simp [countWarnings, List.countP_cons]
  omega

@[simp] theorem countWarnings_append (l1 l2 : List Node) :
    countWarnings (l1 ++ l2) = countWarnings l1 + countWarnings l2 := by
  simp [countWarnings, List.countP_append]

/-- Once the pending-disclaimer flag is off, the classifier never emits a
warning banner again. -/
theorem countWarnings_go_flag_false (cfg : Config) (lang : String) :
    ∀ (lines : List String) (st : ScanState), st.insert_warnings = false →
      countWarnings (generateNodesGo cfg lang st lines) = 0 := by
  intro lines
  induction lines with
  | nil => intro st h; rfl
  | cons line rest ih =>
    intro st h
    rw [generateNodesGo]
    split_ifs with h1 h2 h3 h4 h5 h6 h7 h8 h9 <;>
      simp_all [Node.isWarning, ih]

/-- At most one warning banner is ever emitted: the count is bounded by the
value of the pending-disclaimer flag at entry. -/
theorem countWarnings_go_le (cfg : Config) (lang : String) :
    ∀ (lines : List String) (st : ScanState),
      countWarnings (generateNodesGo cfg lang st lines)
        ≤ if st.insert_warnings then 1 else 0 := by
  intro lines
  induction lines with
  | nil => intro st; simp [generateNodesGo]
  | cons line rest ih =>
    intro st
    rw [generateNodesGo]
    by_cases h1 : pyStrip line = "---"
    · rw [if_pos h1]
      by_cases hw : (st.is_front_matter && st.insert_warnings) = true
      · have hw1 : st.insert_warnings = true := by
          cases hiw : st.insert_warnings <;> simp_all
        have hw2 : st.is_front_matter = true := by
          cases hfm : st.is_front_matter <;> simp_all
        have h0 := countWarnings_go_flag_false cfg lang rest
          { st with is_front_matter := !st.is_front_matter,
                    insert_warnings := st.insert_warnings && !st.is_front_matter }
          (by simp [hw2])
        rw [if_pos hw]
        simp_all [Node.isWarning]
      · rw [if_neg hw]
        have := ih { st with is_front_matter := !st.is_front_matter,
                             insert_warnings := st.insert_warnings && !st.is_front_matter }
        simp only [countWarnings_append, countWarnings_cons, Node.isWarning] at this ⊢
        cases hiw : st.insert_warnings <;> cases hfm : st.is_front_matter <;>
          simp_all
    · rw [if_neg h1]
      by_cases h2 : pyStartsWith line "```" = true
      · rw [if_pos h2]
        have := ih { st with is_code_block := !st.is_code_block }
        simp_all [Node.isWarning]
      · rw [if_neg h2]
        by_cases h3 : pyStartsWith line "__do_not_translate__" = true
        · rw [if_pos h3]
          exact ih _
        · rw [if_neg h3]
          by_cases h4 : st.is_front_matter = true
          · rw [if_pos h4]
            have := ih st
            split_ifs <;> simp_all [Node.isWarning]
          · rw [if_neg h4]
            by_cases h5 : (st.is_code_block || st.do_not_trans) = true
            · rw [if_pos h5]
              have := ih st
              simp_all [Node.isWarning]
            · rw [if_neg h5]
              by_cases h6 : (pyStrip line = "" || pyStartsWith line "<audio"
                  || pyStartsWith line "<img ") = true
              · rw [if_pos h6]
                have := ih st
                simp_all [Node.isWarning]
              · rw [if_neg h6]
                by_cases h7 : imageOrLinkMatch line = true
                · rw [if_pos h7]
                  have := ih st
                  simp_all [Node.isWarning]
                · rw [if_neg h7]
                  by_cases h8 : pyStartsWith (pyStrip line) "#" = true
                  · rw [if_pos h8]
                    by_cases h9 : (pyStartsWith (pyStrip line) "# "
                        && st.insert_warnings) = true
                    · have h9a : st.insert_warnings = true := by
                        cases hiw : st.insert_warnings <;> simp_all
                      have h9b : pyStartsWith (pyStrip line) "# " = true := by
                        cases hsp : pyStartsWith (pyStrip line) "# " <;> simp_all
                      have h0 := countWarnings_go_flag_false cfg lang rest
                        { st with insert_warnings :=
                            st.insert_warnings && !(pyStartsWith (pyStrip line) "# ") }
                        (by simp [h9b])
                      rw [if_pos h9]
                      simp_all [Node.isWarning]
                    · rw [if_neg h9]
                      have := ih { st with insert_warnings :=
                          st.insert_warnings && !(pyStartsWith (pyStrip line) "# ") }
                      simp only [countWarnings_append, countWarnings_cons,
                        Node.isWarning] at this ⊢
                      cases hiw : st.insert_warnings <;>
                        cases hsp : pyStartsWith (pyStrip line) "# " <;> simp_all
                  · rw [if_neg h8]
                    have := ih st
                    simp_all [Node.isWarning]

/-- The classifier's output never starts with a warning banner. -/
theorem headNotWarning_go (cfg : Config) (lang : String) :
    ∀ (lines : List String) (st : ScanState),
      headNotWarning (generateNodesGo cfg lang st lines) := by
  intro lines
  induction lines with
  | nil => intro st; trivial
  | cons line rest ih =>
    intro st
    rw [generateNodesGo]
    split_ifs <;> simp_all [headNotWarning, Node.isWarning]

theorem not_isWarning_of_countWarnings_zero {l : List Node}
    (h : countWarnings l = 0) : ∀ n ∈ l, n.isWarning = false := by
  intro n hn
  have h2 := List.countP_eq_zero.mp (show l.countP Node.isWarning = 0 from h)
  simpa using h2 n hn

theorem headNotWarning_of_countWarnings_zero {l : List Node}
    (h : countWarnings l = 0) : headNotWarning l := by
  cases l with
  | nil => trivial
  | cons n l => exact not_isWarning_of_countWarnings_zero h n (by simp)

theorem warningsPlaced_cons_of_head_false {a b : Node} {l : List Node}
    (hb : b.isWarning = false) (hp : warningsPlaced (b :: l)) :
    warningsPlaced (a :: b :: l) :=
  ⟨fun hw => absurd hw (by simp [hb]), hp⟩

theorem warningsPlaced_of_countWarnings_zero :
    ∀ (l : List Node), countWarnings l = 0 → warningsPlaced l
  | [], _ => trivial
  | [_], _ => trivial
  | a :: b :: l, h => by
    have hb : b.isWarning = false :=
      not_isWarning_of_countWarnings_zero h b (by simp)
    refine warningsPlaced_cons_of_head_false hb ?_
    apply warningsPlaced_of_countWarnings_zero
    simp only [countWarnings_cons] at h ⊢
    omega

/-- Prepending any node to a list whose head is not a warning preserves
placement. -/
theorem warningsPlaced_cons (a : Node) (l : List Node)
    (hh : headNotWarning l) (hp : warningsPlaced l) : warningsPlaced (a :: l) := by
  cases l with
  | nil => trivial
  | cons b l =>
    exact warningsPlaced_cons_of_head_false hh hp

/-- Every warning banner the classifier emits immediately follows either a
front-matter delimiter line or a level-1 heading node. -/
theorem warningsPlaced_go (cfg : Config) (lang : String) :
    ∀ (lines : List String) (st : ScanState),
      warningsPlaced (generateNodesGo cfg lang st lines) := by
  intro lines
  induction lines with
  | nil => intro st; trivial
  | cons line rest ih =>
    intro st
    rw [generateNodesGo]
    by_cases h1 : pyStrip line = "---"
    · rw [if_pos h1]
      by_cases hw : (st.is_front_matter && st.insert_warnings) = true
      · have hw2 : st.is_front_matter = true := by
          cases hfm : st.is_front_matter <;> simp_all
        have h0 := countWarnings_go_flag_false cfg lang rest
          { st with is_front_matter := !st.is_front_matter,
                    insert_warnings := st.insert_warnings && !st.is_front_matter }
          (by simp [hw2])
        rw [if_pos hw]
        simp only [List.cons_append, List.nil_append]
        exact ⟨fun _ => by simp [okBefore, h1],
          warningsPlaced_cons _ _ (headNotWarning_of_countWarnings_zero h0)
            (warningsPlaced_of_countWarnings_zero _ h0)⟩
      · rw [if_neg hw]
        simp only [List.cons_append, List.nil_append]
        exact warningsPlaced_cons _ _ (headNotWarning_go cfg lang rest _) (ih _)
    · rw [if_neg h1]
      by_cases h2 : pyStartsWith line "```" = true
      · rw [if_pos h2]
        exact warningsPlaced_cons _ _ (headNotWarning_go cfg lang rest _) (ih _)
      · rw [if_neg h2]
        by_cases h3 : pyStartsWith line "__do_not_translate__" = true
        · rw [if_pos h3]
          exact ih _
        · rw [if_neg h3]
          by_cases h4 : st.is_front_matter = true
          · rw [if_pos h4]
            exact warningsPlaced_cons _ _ (headNotWarning_go cfg lang rest _) (ih _)
          · rw [if_neg h4]
            by_cases h5 : (st.is_code_block || st.do_not_trans) = true
            · rw [if_pos h5]
              exact warningsPlaced_cons _ _ (headNotWarning_go cfg lang rest _) (ih _)
            · rw [if_neg h5]
              by_cases h6 : (pyStrip line = "" || pyStartsWith line "<audio"
                  || pyStartsWith line "<img ") = true
              · rw [if_pos h6]
                exact warningsPlaced_cons _ _ (headNotWarning_go cfg lang rest _) (ih _)
              · rw [if_neg h6]
                by_cases h7 : imageOrLinkMatch line = true
                · rw [if_pos h7]
                  exact warningsPlaced_cons _ _ (headNotWarning_go cfg lang rest _) (ih _)
                · rw [if_neg h7]
                  by_cases h8 : pyStartsWith (pyStrip line) "#" = true
                  · rw [if_pos h8]
                    by_cases h9 : (pyStartsWith (pyStrip line) "# "
                        && st.insert_warnings) = true
                    · have h9b : pyStartsWith (pyStrip line) "# " = true := by
                        cases hsp : pyStartsWith (pyStrip line) "# " <;> simp_all
                      have h0 := countWarnings_go_flag_false cfg lang rest
                        { st with insert_warnings :=
                            st.insert_warnings && !(pyStartsWith (pyStrip line) "# ") }
                        (by simp [h9b])
                      rw [if_pos h9]
                      simp only [List.cons_append, List.nil_append]
                      exact ⟨fun _ => by simp [okBefore, h9b],
                        warningsPlaced_cons _ _
                          (headNotWarning_of_countWarnings_zero h0)
                          (warningsPlaced_of_countWarnings_zero _ h0)⟩
                    · rw [if_neg h9]
                      simp only [List.cons_append, List.nil_append]
                      exact warningsPlaced_cons _ _
                        (headNotWarning_go cfg lang rest _) (ih _)
                  · rw [if_neg h8]
                    exact warningsPlaced_cons _ _ (headNotWarning_go cfg lang rest _) (ih _)

/-- Inside an open front-matter block, lines that are not delimiter lines
neither emit warning banners nor change the front-matter or
pending-disclaimer flags. -/
theorem generateNodesGo_front_matter_body (cfg : Config) (lang : String) :
    ∀ (body : List String) (st : ScanState) (more : List String),
      st.is_front_matter = true →
      (∀ l ∈ body, pyStrip l ≠ "---") →
      ∃ (ns : List Node) (st2 : ScanState),
        generateNodesGo cfg lang st (body ++ more)
          = ns ++ generateNodesGo cfg lang st2 more
        ∧ countWarnings ns = 0
        ∧ st2.is_front_matter = true
        ∧ st2.insert_warnings = st.insert_warnings := by
  intro body
  induction body with
  | nil => intro st more hfm hb; exact ⟨[], st, by simp, rfl, hfm, rfl⟩
  | cons line body ih =>
    intro st more hfm hb
    have hline : pyStrip line ≠ "---" := hb line (by simp)
    rw [List.cons_append, generateNodesGo, if_neg hline]
    by_cases h2 : pyStartsWith line "```" = true
    · rw [if_pos h2]
      obtain ⟨ns, st2, heq, hc, hfm2, hiw⟩ :=
        ih { st with is_code_block := !st.is_code_block } more hfm
          (fun l hl => hb l (by simp [hl]))
      exact ⟨Node.transparent line :: ns, st2, by simp [heq],
        by simp [Node.isWarning, hc], hfm2, hiw⟩
    · rw [if_neg h2]
      by_cases h3 : pyStartsWith line "__do_not_translate__" = true
      · rw [if_pos h3]
        obtain ⟨ns, st2, heq, hc, hfm2, hiw⟩ :=
          ih { st with do_not_trans := !st.do_not_trans } more hfm
            (fun l hl => hb l (by simp [hl]))
        exact ⟨ns, st2, heq, hc, hfm2, hiw⟩
      · rw [if_neg h3, if_pos hfm]
        obtain ⟨ns, st2, heq, hc, hfm2, hiw⟩ :=
          ih st more hfm (fun l hl => hb l (by simp [hl]))
        refine ⟨(if startsWithAny line cfg.front_matter_key_value_keys then
            Node.keyValue line none
          else if startsWithAny line cfg.front_matter_transparent_keys then
            Node.transparent line
          else if startsWithAny line cfg.front_matter_key_value_array_keys then
            Node.keyValueArray line none
          else Node.solid line none) :: ns, st2, by simp [heq], ?_, hfm2, hiw⟩
        split_ifs <;> simp [Node.isWarning, hc]

/-- With insertion enabled, a front-matter document gets the banner
immediately after the closing delimiter and nowhere else. -/
theorem generateNodes_front_matter_banner (cfg : Config) (lang : String)
    (body rest : List String)
    (hiw : cfg.insert_warnings = true)
    (hb : ∀ l ∈ body, pyStrip l ≠ "---") :
    ∃ (ns tail : List Node),
      generateNodes cfg ("---" :: body ++ "---" :: rest) lang
        = Node.transparent "---" :: ns
            ++ Node.transparent "---"
              :: Node.warning (cfg.warnings_mapping lang) :: tail
        ∧ countWarnings ns = 0 ∧ countWarnings tail = 0 := by
  have hstrip : pyStrip "---" = "---" := rfl
  obtain ⟨ns, st2, heq, hc, hfm2, hiw2⟩ :=
    generateNodesGo_front_matter_body cfg lang body
      { ScanState.init cfg with
          is_front_matter := !(ScanState.init cfg).is_front_matter,
          insert_warnings :=
            (ScanState.init cfg).insert_warnings
              && !(ScanState.init cfg).is_front_matter }
      ("---" :: rest) (by simp [ScanState.init]) hb
  have hiw2' : st2.insert_warnings = true := by
    rw [hiw2]; simp [ScanState.init, hiw]
  have hcond : (st2.is_front_matter && st2.insert_warnings) = true := by
    rw [hfm2, hiw2']; rfl
  have hstep : generateNodesGo cfg lang st2 ("---" :: rest)
      = Node.transparent "---" :: Node.warning (cfg.warnings_mapping lang)
          :: generateNodesGo cfg lang
            { st2 with is_front_matter := !st2.is_front_matter,
                       insert_warnings :=
                         st2.insert_warnings && !st2.is_front_matter } rest := by
    rw [generateNodesGo, if_pos hstrip, if_pos hcond]
    rfl
  have htail : countWarnings (generateNodesGo cfg lang
      { st2 with is_front_matter := !st2.is_front_matter,
                 insert_warnings :=
                   st2.insert_warnings && !st2.is_front_matter } rest) = 0 :=
    countWarnings_go_flag_false cfg lang rest _ (by simp [hfm2])
  refine ⟨ns, _, ?_, hc, htail⟩
  rw [generateNodes]
  rw [show ("---" :: body ++ "---" :: rest : List String)
      = "---" :: (body ++ "---" :: rest) from rfl]
  rw [generateNodesGo, if_pos hstrip,
    if_neg (show ¬(((ScanState.init cfg).is_front_matter
      && (ScanState.init cfg).insert_warnings) = true) from by
        simp [ScanState.init])]
  rw [heq, hstep]
  simp

theorem isTransparent_trans_lines {n : Node} (h : n.isTransparent = true) :
    n.trans_lines = 0 := by
  cases n <;> simp_all [Node.isTransparent, Node.trans_lines]

/-- The splice leaves every transparent node untouched (it only fills the
`value` of translatable nodes). -/
theorem spliceGo_preserves_transparent (translated : List String) :
    ∀ (ns : List Node) (pos : Nat) (r : List Node × Nat),
      spliceGo translated ns pos = some r →
      List.Forall₂ (fun a b => a.isTransparent = true → b = a) ns r.1 := by
  intro ns
  induction ns with
  | nil =>
    intro pos r h
    simp only [spliceGo, Option.some.injEq] at h
    rw [← h]
    exact List.Forall₂.nil
  | cons n ns ih =>
    intro pos r h
    by_cases h0 : n.trans_lines = 0
    · rw [spliceGo, if_pos h0, Option.map_eq_some'] at h
      obtain ⟨r', hr', hfr⟩ := h
      rw [← hfr]
      exact List.Forall₂.cons (fun _ => rfl) (ih _ _ hr')
    · by_cases h1 : n.trans_lines = 1
      · rw [spliceGo, if_neg h0, if_pos h1] at h
        cases hp : translated[pos]? with
        | none => rw [hp] at h; cases h
        | some l =>
          rw [hp, Option.map_eq_some'] at h
          obtain ⟨r', hr', hfr⟩ := h
          rw [← hfr]
          exact List.Forall₂.cons
            (fun ht => absurd (isTransparent_trans_lines ht) (by omega))
            (ih _ _ hr')
      · rw [spliceGo, if_neg h0, if_neg h1, Option.map_eq_some'] at h
        obtain ⟨r', hr', hfr⟩ := h
        rw [← hfr]
        exact List.Forall₂.cons
          (fun ht => absurd (isTransparent_trans_lines ht) (by omega))
          (ih _ _ hr')

/-- Every transparent node the classifier emits stores one of the input
lines verbatim. -/
theorem transparent_value_mem_lines (cfg : Config) (lang : String) :
    ∀ (lines : List String) (st : ScanState) (v : String),
      Node.transparent v ∈ generateNodesGo cfg lang st lines → v ∈ lines := by
  intro lines
  induction lines with
  | nil => intro st v h; simp [generateNodesGo] at h
  | cons line rest ih =>
    intro st v h
    rw [generateNodesGo] at h
    split_ifs at h <;>
      (try simp [List.mem_cons, Node.transparent.injEq] at h) <;>
      simp only [List.mem_cons] <;>
      first
        | exact Or.inr (ih _ _ h)
        | (rcases h with rfl | h
           · exact Or.inl rfl
           · exact Or.inr (ih _ _ h))

/-! ## Claims -/

/-- **C1 (counterexample)**: the claim that a backend response shorter than
the total expected line count is always a fatal error is false: on a
document whose only translatable segment is a two-element array, a
one-line response is silently truncated — `translate_lines` succeeds and
emits a one-element array (`tags: [x]`) instead of raising. -/
theorem C1_counterexample :
    sumTransLines c1nodes = 2
    ∧ (splitlinesModel "x").length = 1
    ∧ translate_lines cfgA (fun _ _ _ => .ok "x")
        (preprocessing "fr" ["---", "tags: [a, b]", "---"]) "en" "fr"
      = .ok ["---", "tags: [x]", "---", "\n"] :=
  ⟨by decide, by decide, by rfl⟩

/-- **C1 (amended)**: the splice cursor is a non-negative, only-advancing
natural number, so response lines are never wrapped; and whenever every
segment expects at most one line (so the overrunning segment is a
single-line segment) and at least one line is expected, consuming more
lines than the response holds makes the splice raise (`IndexError`,
modelled as `none`) rather than silently truncating.  Segments with
`expected_line_count > 1` take a Python slice instead, which silently
truncates (see the counterexample). -/
theorem C1_amended_overrun_raises :
    ∀ (translated : List String) (nodes : List Node) (pos : Nat),
      (∀ n ∈ nodes, n.trans_lines ≤ 1) →
      1 ≤ sumTransLines nodes →
      translated.length < pos + sumTransLines nodes →
      spliceGo translated nodes pos = none := by
  intro translated nodes
  induction nodes with
  | nil => intro pos _ hsum _; simp [sumTransLines] at hsum
  | cons n ns ih =>
    intro pos hle hsum hlt
    have hsum_cons : sumTransLines (n :: ns) = n.trans_lines + sumTransLines ns := by
      simp [sumTransLines]
    by_cases h0 : n.trans_lines = 0
    · rw [spliceGo, if_pos h0]
      rw [ih pos (fun m hm => hle m (List.mem_cons_of_mem n hm))
        (by omega) (by omega)]
      rfl
    · by_cases h1 : n.trans_lines = 1
      · rw [spliceGo, if_neg h0, if_pos h1]
        cases hp : translated[pos]? with
        | none => rfl
        | some l =>
          have hpos : pos < translated.length := by
            by_contra hc
            rw [List.getElem?_eq_none (by omega)] at hp
            cases hp
          rw [hsum_cons, h1] at hlt
          rw [ih (pos + 1) (fun m hm => hle m (List.mem_cons_of_mem n hm))
            (by omega) (by omega)]
          rfl
      · exact absurd (hle n (List.mem_cons_self n ns)) (by omega)

/-- Witness for the amended C1 at a concrete overrun: a single-line segment
with an empty response makes the splice raise. -/
theorem C1_amended_overrun_raises_witness :
    spliceGo [] [Node.solid "a" none] 0 = none :=
  C1_amended_overrun_raises [] [Node.solid "a" none] 0
    (by decide) (by decide) (by decide)

/-- **C2**: each segment contributes to the batch exactly
`expected_line_count` lines, so the sum of `expected_line_count` over all
segments equals the length of the batch submitted to the backend; and the
splice walks the segments in order with a single cursor starting at 0 that
advances by each segment's `expected_line_count`, so on success the number
of response lines consumed (the final cursor) also equals that sum. -/
theorem C2_conservation :
    (∀ n : Node, n.trans_lines = n.get_trans_buff.length)
    ∧ (∀ nodes : List Node, (batchLines nodes).length = sumTransLines nodes)
    ∧ (∀ (translated : List String) (nodes : List Node) (r : List Node × Nat),
        spliceGo translated nodes 0 = some r → r.2 = sumTransLines nodes) :=
  ⟨trans_lines_eq_buff_length, batchLines_length,
    fun translated nodes r h => by simpa using spliceGo_cursor translated nodes 0 r h⟩

/-- Witness for C2: on a concrete document the splice succeeds and its
final cursor equals the total expected line count. -/
theorem C2_conservation_witness :
    ∃ r, spliceGo ["x", "y", "z"] c2nodes 0 = some r ∧ r.2 = sumTransLines c2nodes := by
  have hs : (spliceGo ["x", "y", "z"] c2nodes 0).isSome = true := by decide
  obtain ⟨r, hr⟩ := Option.isSome_iff_exists.mp hs
  exact ⟨r, hr, C2_conservation.2.2 _ _ _ hr⟩

/-- On success, `__translate_to` writes to `<stem>.<target_lang>.md`. -/
theorem translate_to_written_path (cfg : Config)
    (backend : List String → String → String → Except String String)
    (stem src_text lang p t : String)
    (h : translate_to cfg backend stem src_text lang = .written p t) :
    p = outPath stem lang := by
  cases htl : translate_lines cfg backend
      (preprocessing lang (splitlinesModel src_text)) cfg.src_language lang with
  | error e =>
    simp [translate_to, translate_to_result, htl, Except.bind] at h
  | ok fl =>
    simp only [translate_to, translate_to_result, htl, Except.bind, bind,
      pure, Except.pure, TaskResult.written.injEq] at h
    exact h.1.symm

/-- **C3**: at most one machine-translation disclaimer segment is ever
emitted per (document, target language) — the banner count is at most 1,
and 0 when insertion is disabled; the output never begins with a banner
and every banner immediately follows either a front-matter delimiter line
or a level-1 heading node; and for a document that begins with a
front-matter block (insertion enabled), the single banner appears as a
transparent segment immediately after the delimiter that closes front
matter and nowhere else — in particular not also after a later level-1
heading. -/
theorem C3_disclaimer_at_most_once :
    (∀ (cfg : Config) (lines : List String) (lang : String),
        countWarnings (generateNodes cfg lines lang) ≤ 1
        ∧ (cfg.insert_warnings = false →
            countWarnings (generateNodes cfg lines lang) = 0)
        ∧ headNotWarning (generateNodes cfg lines lang)
        ∧ warningsPlaced (generateNodes cfg lines lang))
    ∧ (∀ (cfg : Config) (lang : String) (body rest : List String),
        cfg.insert_warnings = true →
        (∀ l ∈ body, pyStrip l ≠ "---") →
        ∃ (ns tail : List Node),
          generateNodes cfg ("---" :: body ++ "---" :: rest) lang
            = Node.transparent "---" :: ns
                ++ Node.transparent "---"
                  :: Node.warning (cfg.warnings_mapping lang) :: tail
          ∧ countWarnings ns = 0 ∧ countWarnings tail = 0) := by
  constructor
  · intro cfg lines lang
    refine ⟨?_, ?_, headNotWarning_go cfg lang lines _,
      warningsPlaced_go cfg lang lines _⟩
    · have h := countWarnings_go_le cfg lang lines (ScanState.init cfg)
      exact le_trans h (by split_ifs <;> omega)
    · intro h
      exact countWarnings_go_flag_false cfg lang lines (ScanState.init cfg)
        (by simp [ScanState.init, h])
  · exact fun cfg lang body rest hiw hb =>
      generateNodes_front_matter_banner cfg lang body rest hiw hb

/-- Witness for C3: with insertion disabled, a document emits no banner. -/
theorem C3_disclaimer_at_most_once_witness :
    countWarnings (generateNodes cfgA ["# t", "x"] "fr") = 0 :=
  (C3_disclaimer_at_most_once.1 cfgA ["# t", "x"] "fr").2.1 rfl

/-- **C4 (counterexample)**: the claim that a Transparent segment's output
line is byte-identical to the original source line is false: for target
`"fr"` (≠ `"zh-tw"`), preprocessing folds the full-width `！` inside a code
block to `!` before classification, so the document consisting solely of
Transparent segments is written back changed at that line. -/
theorem C4_counterexample :
    ((generateNodes cfgA (preprocessing "fr" (splitlinesModel "```\n！\n```")) "fr").all
        Node.isTransparent) = true
    ∧ translate_to cfgA (fun _ _ _ => .ok "") "doc" "```\n！\n```" "fr"
        = .written "doc.fr.md" "```\n!\n```"
    ∧ (splitlinesModel "```\n！\n```")[1]? = some "！"
    ∧ (splitlinesModel "```\n!\n```")[1]? = some "!"
    ∧ ("！" : String) ≠ "!" :=
  ⟨by decide, by rfl, by decide, by decide, by decide⟩

/-- **C4 (amended)**: Transparent segments pass through splice and compose
unchanged — `compose` emits exactly the stored line, the splice never
touches a transparent node, and the stored line is one of the classifier's
input lines verbatim.  Byte-identity with the original source line
additionally requires preprocessing and expansion to be the identity: for
a target whose lowercase form is `"zh-tw"` preprocessing leaves all lines
unchanged, and for a compact target the expansion pass emits every line
unchanged; for other targets full-width folding and script-boundary
expansion may alter even Transparent lines. -/
theorem C4_amended_transparent_passthrough :
    (∀ v, Node.compose (.transparent v) = [v])
    ∧ (∀ (translated : List String) (ns : List Node) (pos : Nat)
          (r : List Node × Nat),
        spliceGo translated ns pos = some r →
        List.Forall₂ (fun a b => a.isTransparent = true → b = a) ns r.1)
    ∧ (∀ (cfg : Config) (lang : String) (lines : List String)
          (st : ScanState) (v : String),
        Node.transparent v ∈ generateNodesGo cfg lang st lines → v ∈ lines)
    ∧ (∀ (lang : String) (lines : List String),
        pyLower lang = "zh-tw" → preprocessing lang lines = lines ++ ["\n"])
    ∧ (∀ (cfg : Config) (lang : String) (lines : List String) (lc : String),
        cfg.compact_langs.contains lang = true →
        expandDocGo cfg lang lines lc = (joinNLterm lines, lc)) := by
  refine ⟨fun v => rfl, spliceGo_preserves_transparent, ?_, ?_, ?_⟩
  · exact fun cfg lang lines st v h => transparent_value_mem_lines cfg lang lines st v h
  · intro lang lines h
    simp [preprocessing, h]
  · exact fun cfg lang lines lc h => expandDocGo_compact cfg lang h lines lc

/-- Witness for the amended C4 at concrete inputs: a spliced node list
keeping its transparent node, the zh-tw preprocessing identity and the
compact expansion identity. -/
theorem C4_amended_transparent_passthrough_witness :
    List.Forall₂ (fun a b => a.isTransparent = true → b = a)
      [Node.transparent "x", Node.solid "y" none]
      [Node.transparent "x", Node.solid "y" (some "t")]
    ∧ preprocessing "zh-TW" ["ａ"] = ["ａ", "\n"]
    ∧ expandDocGo cfgB "ja" ["中a"] "" = ("中a\n", "") := by
  refine ⟨?_, ?_, ?_⟩
  · exact C4_amended_transparent_passthrough.2.1 ["t"]
      [Node.transparent "x", Node.solid "y" none] 0
      ([Node.transparent "x", Node.solid "y" (some "t")], 1) (by decide)
  · exact (C4_amended_transparent_passthrough.2.2.2.1 "zh-TW" ["ａ"]
      (by decide))
  · exact (C4_amended_transparent_passthrough.2.2.2.2 cfgB "ja" ["中a"] ""
      (by decide)).trans (by decide)

/-- **C5**: a per-language task depends only on the backend's behaviour for
its own target language (so a failure for one language cannot affect the
others); any exception inside a task is caught at the task boundary and
logged rather than propagated; and concretely, running three languages
where the backend fails for exactly one yields complete written outputs
for the other two plus one logged failure, with nothing thrown out of the
aggregate call. -/
theorem C5_failure_isolation :
    (∀ (cfg : Config) (b1 b2 : List String → String → String → Except String String)
        (stem src_text lang : String),
        (∀ batch sl, b1 batch sl lang = b2 batch sl lang) →
        translate_to cfg b1 stem src_text lang = translate_to cfg b2 stem src_text lang)
    ∧ (∀ (cfg : Config) (b : List String → String → String → Except String String)
        (stem src_text lang e : String),
        translate_to_result cfg b stem src_text lang = .error e →
        translate_to cfg b stem src_text lang
          = .failed ("Error occurred when translating " ++ stem ++ ".md to "
              ++ lang ++ ": " ++ e))
    ∧ parallel_translate cfgA beFailFr "doc" "hello" ["de", "fr", "ja"]
        = [.written "doc.de.md" "hello",
           .failed "Error occurred when translating doc.md to fr: boom",
           .written "doc.ja.md" "hello"] := by
  refine ⟨?_, ?_, by decide⟩
  · intro cfg b1 b2 stem src_text lang hb
    simp [translate_to, translate_to_result, translate_lines, hb]
  · intro cfg b stem src_text lang e h
    simp [translate_to, h]

/-- Witness for C5: the backend-independence part at a concrete input where
the two backends agree on the task's own language. -/
theorem C5_failure_isolation_witness :
    translate_to cfgA beEcho "doc" "hello" "de"
      = translate_to cfgA beFailFr "doc" "hello" "de" :=
  C5_failure_isolation.1 cfgA beEcho beFailFr "doc" "hello" "de"
    (fun batch sl => rfl)

/-- **C6**: a (document, target language) pair whose output file
`<stem>.<target_lang>.md` already exists is dropped from the selected
target languages (no translation work is performed for it), and no task of
the run ever writes to that pair's output path — the existing file is
never overwritten. -/
theorem C6_skip_existing (cfg : Config) (fileExists : String → Bool)
    (stem lang : String) (h : fileExists (outPath stem lang) = true) :
    lang ∉ selectTargetLangs cfg fileExists stem
    ∧ ∀ (backend : List String → String → String → Except String String)
        (src_text p t : String),
        TaskResult.written p t ∈
          parallel_translate cfg backend stem src_text
            (selectTargetLangs cfg fileExists stem) →
        p ≠ outPath stem lang := by
  constructor
  · intro hmem
    rw [selectTargetLangs, List.mem_filter] at hmem
    rw [h] at hmem
    simp at hmem
  · intro backend src_text p t hmem heq
    rw [parallel_translate, List.mem_map] at hmem
    obtain ⟨l, hl, hres⟩ := hmem
    have hp := translate_to_written_path cfg backend stem src_text l p t hres
    rw [selectTargetLangs, List.mem_filter] at hl
    have hfe : fileExists (outPath stem l) = false := by
      rcases hl with ⟨-, hl2⟩
      simpa using hl2
    rw [← hp, heq, h] at hfe
    cases hfe

/-- Witness for C6: with only `doc.fr.md` existing, `fr` is not selected
for translation. -/
theorem C6_skip_existing_witness :
    "fr" ∉ selectTargetLangs cfgA existsFrOnly "doc" :=
  (C6_skip_existing cfgA existsFrOnly "doc" "fr" (by decide)).1

/-- **C7**: `__preprocessing` folds full-width ASCII-range symbols to
half-width for every target language except the designated `"zh-tw"`
(case-insensitively), appends exactly one trailing blank line (`"\n"`),
has no error conditions, and is a pure function of its inputs. -/
theorem C7_preprocessing_contract :
    (∀ lang lines, preprocessing lang lines =
        (if pyLower lang = "zh-tw" then lines
         else lines.map full_width_symbol_to_half_width) ++ ["\n"])
    ∧ (∀ lang lines, (preprocessing lang lines).length = lines.length + 1)
    ∧ (∀ lang lines, (preprocessing lang lines).getLast? = some "\n")
    ∧ pyStrip "\n" = ""
    ∧ (∀ lines, preprocessing "ZH-TW" lines = lines ++ ["\n"])
    ∧ (∀ lines, preprocessing "fr" lines
        = lines.map full_width_symbol_to_half_width ++ ["\n"])
    ∧ full_width_symbol_to_half_width "Ａｂ！？～" = "Ab!?~" := by
  refine ⟨?_, ?_, ?_, by decide, ?_, ?_, by decide⟩
  · intro lang lines
    by_cases h : pyLower lang = "zh-tw" <;> simp [preprocessing, h]
  · intro lang lines
    by_cases h : pyLower lang = "zh-tw" <;> simp [preprocessing, h]
  · intro lang lines
    by_cases h : pyLower lang = "zh-tw" <;>
      simp [preprocessing, h, getLast?_append_singleton]
  · intro lines
    simp [preprocessing, show pyLower "ZH-TW" = "zh-tw" from by decide]
  · intro lines
    simp [preprocessing, show pyLower "fr" ≠ "zh-tw" from by decide]

/-- **C8**: for a target language in the configured compact set, the
expansion post-processor passes every line of the composed translated text
through unchanged (and does not touch the `last_char` accumulator). -/
theorem C8_compact_identity (cfg : Config) (lang : String)
    (lines : List String) (lc : String)
    (h : cfg.compact_langs.contains lang = true) :
    expandDocGo cfg lang lines lc = (joinNLterm lines, lc) :=
  expandDocGo_compact cfg lang h lines lc

/-- Witness for C8 at a concrete compact-language input. -/
theorem C8_compact_identity_witness :
    expandDocGo cfgB "ja" ["中abc", "x"] "" = ("中abc\nx\n", "") :=
  (C8_compact_identity cfgB "ja" ["中abc", "x"] "" (by decide)).trans (by decide)

/-- **C9**: during expansion for a non-compact target, the single
`last_char` accumulator is carried across the whole document rather than
reset per line (the fold over `xs ++ ys` feeds the accumulator left by `xs`
into `ys`), and the decision whether a line's first part gets a leading
space depends on the previous line's last emitted character: after a line
ending in an ideograph, the Latin line `"abc"` is emitted with a leading
space; after a line ending in `"."` it is emitted unchanged. -/
theorem C9_last_char_across_lines :
    (∀ (cfg : Config) (lang : String) (xs ys : List String) (lc : String),
      expandDocGo cfg lang (xs ++ ys) lc =
        ((expandDocGo cfg lang xs lc).1
            ++ (expandDocGo cfg lang ys (expandDocGo cfg lang xs lc).2).1,
          (expandDocGo cfg lang ys (expandDocGo cfg lang xs lc).2).2))
    ∧ expandDocGo cfgA "fr" ["中", "abc"] "" = ("中\n abc\n", "c")
    ∧ expandDocGo cfgA "fr" ["x.", "abc"] "" = ("x.\nabc\n", "c") :=
  ⟨expandDocGo_append, by decide, by decide⟩

/-- **C10**: the text written by `__translate_to` is the expanded document
with all trailing newline characters stripped (`rstrip('\n')`), so the
written file never ends with a newline — in particular the blank
terminator line appended by preprocessing never survives at the end of the
output. -/
theorem C10_rstrip_written_text (cfg : Config)
    (backend : List String → String → String → Except String String)
    (stem src_text lang p t : String)
    (h : translate_to cfg backend stem src_text lang = .written p t) :
    t.toList.getLast? ≠ some '\n'
    ∧ ∃ fl, translate_lines cfg backend
          (preprocessing lang (splitlinesModel src_text)) cfg.src_language lang
          = .ok fl
        ∧ t = rstripNewlines (expandDocGo cfg lang fl "").1 := by
  cases htl : translate_lines cfg backend
      (preprocessing lang (splitlinesModel src_text)) cfg.src_language lang with
  | error e =>
    simp [translate_to, translate_to_result, htl, Except.bind] at h
  | ok fl =>
    simp only [translate_to, translate_to_result, htl, Except.bind, bind,
      pure, Except.pure, TaskResult.written.injEq] at h
    exact ⟨h.2 ▸ rstripNewlines_no_trailing _, fl, rfl, h.2.symm⟩

/-- Witness for C10 at a concrete run of the pipeline. -/
theorem C10_rstrip_written_text_witness :
    ("hello" : String).toList.getLast? ≠ some '\n'
    ∧ ∃ fl, translate_lines cfgA beEcho
          (preprocessing "de" (splitlinesModel "hello")) cfgA.src_language "de"
          = .ok fl
        ∧ "hello" = rstripNewlines (expandDocGo cfgA "de" fl "").1 :=
  C10_rstrip_written_text cfgA beEcho "doc" "hello" "de" "doc.de.md" "hello"
    (by decide)

end MdTranslater
